import Mathlib

set_option maxHeartbeats 1000000

/- Shallow embedding of the agent orchestration layer of SmartHR AI
   (src/SmartHR_App.tsx). Strings are modelled as List Char. The
   structured payloads that the code obtains from JSON.parse are modelled
   by the inductive type Jval, with numbers restricted to integers
   (the payload fields the code reads are integer scores and strings).
   Asynchronous effects are modelled by threading explicit state values;
   the outcome of the single fetch performed by callGemini is an input
   of type GeminiOutcome. -/

/- ===== character and string utilities ===== -/

def isWS (c : Char) : Bool :=
  c.toNat = 9 || c.toNat = 10 || c.toNat = 11 || c.toNat = 12 || c.toNat = 13 || c.toNat = 32

def isDig (c : Char) : Bool :=
  48 ≤ c.toNat && c.toNat ≤ 57

def skipWS : List Char → List Char
  | [] => []
  | c :: cs => if isWS c then skipWS cs else c :: cs

/- model of String.prototype.trim -/
def trimList (cs : List Char) : List Char :=
  ((cs.dropWhile isWS).reverse.dropWhile isWS).reverse

def startsWithL : List Char → List Char → Bool
  | [], _ => true
  | _ :: _, [] => false
  | p :: ps, c :: cs => c = p && startsWithL ps cs

/- model of String.prototype.includes -/
def containsSub (pat : List Char) : List Char → Bool
  | [] => startsWithL pat []
  | c :: cs => startsWithL pat (c :: cs) || containsSub pat cs

def fenceJson : List Char := ("```json").data

def fence3 : List Char := ("```").data

/- model of s.replace(markdown fence regex with json alternative, empty), the
   global regex replace used on model output before JSON.parse: at each
   position the seven character fence-json alternative is preferred,
   then the three character fence; fuel equals the input length, which
   suffices because every step consumes at least one character. -/
def stripFencesF : Nat → List Char → List Char
  | 0, cs => cs
  | _ + 1, [] => []
  | f + 1, c :: cs =>
    if startsWithL fenceJson (c :: cs) then stripFencesF f ((c :: cs).drop 7)
    else if startsWithL fence3 (c :: cs) then stripFencesF f ((c :: cs).drop 3)
    else c :: stripFencesF f cs

def stripFences (cs : List Char) : List Char := stripFencesF cs.length cs

/- ===== JSON values ===== -/

inductive Jval : Type where
  | jnull : Jval
  | jbool : Bool → Jval
  | jnum : Int → Jval
  | jstr : List Char → Jval
  | jarr : List Jval → Jval
  | jobj : List (List Char × Jval) → Jval

/- property access on a parsed object, last duplicate key wins as in
   JavaScript objects built by JSON.parse -/
def jget (v : Jval) (key : List Char) : Option Jval :=
  match v with
  | Jval.jobj fs => fs.foldl (fun acc kv => if kv.1 = key then some kv.2 else acc) none
  | _ => none

/- ===== JSON parser (model of JSON.parse) ===== -/

def chopLit : List Char → List Char → Option (List Char)
  | [], cs => some cs
  | _ :: _, [] => none
  | p :: ps, c :: cs => if c = p then chopLit ps cs else none

def consOpt (c : Char) (r : Option (List Char × List Char)) : Option (List Char × List Char) :=
  r.map (fun p => (c :: p.1, p.2))

def hexVal (c : Char) : Option Nat :=
  if 48 ≤ c.toNat && c.toNat ≤ 57 then some (c.toNat - 48)
  else if 97 ≤ c.toNat && c.toNat ≤ 102 then some (c.toNat - 87)
  else if 65 ≤ c.toNat && c.toNat ≤ 70 then some (c.toNat - 55)
  else none

def parseStrBody : List Char → Option (List Char × List Char)
  | [] => none
  | c :: cs =>
    if c = '"' then some ([], cs)
    else if c = '\\' then
      match cs with
      | [] => none
      | e :: cs1 =>
        if e = '"' then consOpt '"' (parseStrBody cs1)
        else if e = '\\' then consOpt '\\' (parseStrBody cs1)
        else if e = '/' then consOpt '/' (parseStrBody cs1)
        else if e = 'n' then consOpt (Char.ofNat 10) (parseStrBody cs1)
        else if e = 't' then consOpt (Char.ofNat 9) (parseStrBody cs1)
        else if e = 'r' then consOpt (Char.ofNat 13) (parseStrBody cs1)
        else if e = 'b' then consOpt (Char.ofNat 8) (parseStrBody cs1)
        else if e = 'f' then consOpt (Char.ofNat 12) (parseStrBody cs1)
        else if e = 'u' then
          match cs1 with
          | h1 :: h2 :: h3 :: h4 :: cs2 =>
            match hexVal h1, hexVal h2, hexVal h3, hexVal h4 with
            | some a, some b, some c3, some d =>
              consOpt (Char.ofNat (((a * 16 + b) * 16 + c3) * 16 + d)) (parseStrBody cs2)
            | _, _, _, _ => none
          | _ => none
        else none
    else consOpt c (parseStrBody cs)

def takeDigits : List Char → List Char × List Char
  | [] => ([], [])
  | c :: cs =>
    if isDig c then
      let p := takeDigits cs
      (c :: p.1, p.2)
    else ([], c :: cs)

def digitVal (c : Char) : Nat := c.toNat - 48

def valOfDigits (ds : List Char) : Nat :=
  ds.foldl (fun a c => 10 * a + digitVal c) 0

def parseNat (cs : List Char) : Option (Nat × List Char) :=
  let p := takeDigits cs
  if p.1.isEmpty then none else some (valOfDigits p.1, p.2)

mutual

def parseVal : Nat → List Char → Option (Jval × List Char)
  | 0, _ => none
  | f + 1, cs =>
    match skipWS cs with
    | [] => none
    | c :: cs1 =>
      if c = 'n' then (chopLit ['u', 'l', 'l'] cs1).map (fun r => (Jval.jnull, r))
      else if c = 't' then (chopLit ['r', 'u', 'e'] cs1).map (fun r => (Jval.jbool true, r))
      else if c = 'f' then (chopLit ['a', 'l', 's', 'e'] cs1).map (fun r => (Jval.jbool false, r))
      else if c = '"' then (parseStrBody cs1).map (fun p => (Jval.jstr p.1, p.2))
      else if c = '[' then (parseElems f (skipWS cs1)).map (fun p => (Jval.jarr p.1, p.2))
      else if c = '{' then (parseFields f (skipWS cs1)).map (fun p => (Jval.jobj p.1, p.2))
      else if c = '-' then (parseNat cs1).map (fun p => (Jval.jnum (-(p.1 : Int)), p.2))
      else if isDig c then (parseNat (c :: cs1)).map (fun p => (Jval.jnum ((p.1 : Int)), p.2))
      else none

def parseElems : Nat → List Char → Option (List Jval × List Char)
  | 0, _ => none
  | f + 1, cs =>
    match cs with
    | [] => none
    | c :: cs1 =>
      if c = ']' then some ([], cs1)
      else
        match parseVal f (c :: cs1) with
        | some (v, rest) =>
          match parseElemsTail f (skipWS rest) with
          | some (vs, rest2) => some (v :: vs, rest2)
          | none => none
        | none => none

def parseElemsTail : Nat → List Char → Option (List Jval × List Char)
  | 0, _ => none
  | f + 1, cs =>
    match cs with
    | [] => none
    | c :: cs1 =>
      if c = ']' then some ([], cs1)
      else if c = ',' then
        match parseVal f cs1 with
        | some (v, rest) =>
          match parseElemsTail f (skipWS rest) with
          | some (vs, rest2) => some (v :: vs, rest2)
          | none => none
        | none => none
      else none

def parseFields : Nat → List Char → Option (List (List Char × Jval) × List Char)
  | 0, _ => none
  | f + 1, cs =>
    match cs with
    | [] => none
    | c :: cs1 =>
      if c = '}' then some ([], cs1)
      else if c = '"' then
        match parseStrBody cs1 with
        | some (k, rest) =>
          match skipWS rest with
          | ':' :: rest1 =>
            match parseVal f rest1 with
            | some (v, rest2) =>
              match parseFieldsTail f (skipWS rest2) with
              | some (fs, rest3) => some ((k, v) :: fs, rest3)
              | none => none
            | none => none
          | _ => none
        | none => none
      else none

def parseFieldsTail : Nat → List Char → Option (List (List Char × Jval) × List Char)
  | 0, _ => none
  | f + 1, cs =>
    match cs with
    | [] => none
    | c :: cs1 =>
      if c = '}' then some ([], cs1)
      else if c = ',' then
        match skipWS cs1 with
        | '"' :: cs2 =>
          match parseStrBody cs2 with
          | some (k, rest) =>
            match skipWS rest with
            | ':' :: rest1 =>
              match parseVal f rest1 with
              | some (v, rest2) =>
                match parseFieldsTail f (skipWS rest2) with
                | some (fs, rest3) => some ((k, v) :: fs, rest3)
                | none => none
              | none => none
            | _ => none
          | none => none
        | _ => none
      else none

end

def jparse (cs : List Char) : Option Jval :=
  match parseVal (cs.length + 1) cs with
  | some (v, rest) => if skipWS rest = [] then some v else none
  | none => none

/- ===== canonical JSON serialization (model of JSON.stringify) ===== -/

def escChar (c : Char) : List Char :=
  if c = '"' then ['\\', '"']
  else if c = '\\' then ['\\', '\\']
  else if c = Char.ofNat 10 then ['\\', 'n']
  else if c = Char.ofNat 9 then ['\\', 't']
  else if c = Char.ofNat 13 then ['\\', 'r']
  else if c = Char.ofNat 8 then ['\\', 'b']
  else if c = Char.ofNat 12 then ['\\', 'f']
  else [c]

def printStr (s : List Char) : List Char :=
  '"' :: (s.flatMap escChar ++ ['"'])

def digitChar (d : Nat) : Char :=
  match d with
  | 0 => '0' | 1 => '1' | 2 => '2' | 3 => '3' | 4 => '4'
  | 5 => '5' | 6 => '6' | 7 => '7' | 8 => '8' | _ => '9'

def natDigsF : Nat → Nat → List Char
  | 0, n => [digitChar (n % 10)]
  | f + 1, n => if n < 10 then [digitChar n] else natDigsF f (n / 10) ++ [digitChar (n % 10)]

def natDigs (n : Nat) : List Char := natDigsF n n

def printInt (n : Int) : List Char :=
  if n < 0 then '-' :: natDigs n.natAbs else natDigs n.natAbs

mutual

def printVal : Jval → List Char
  | Jval.jnull => ['n', 'u', 'l', 'l']
  | Jval.jbool true => ['t', 'r', 'u', 'e']
  | Jval.jbool false => ['f', 'a', 'l', 's', 'e']
  | Jval.jnum n => printInt n
  | Jval.jstr s => printStr s
  | Jval.jarr xs => '[' :: (printElems xs ++ [']'])
  | Jval.jobj fs => '{' :: (printFields fs ++ ['}'])

def printElems : List Jval → List Char
  | [] => []
  | x :: t => printVal x ++ printTail t

def printTail : List Jval → List Char
  | [] => []
  | x :: t => ',' :: (printVal x ++ printTail t)

def printFields : List (List Char × Jval) → List Char
  | [] => []
  | kv :: t => printStr kv.1 ++ ':' :: (printVal kv.2 ++ printFTail t)

def printFTail : List (List Char × Jval) → List Char
  | [] => []
  | kv :: t => ',' :: (printStr kv.1 ++ ':' :: (printVal kv.2 ++ printFTail t))

end

/- ===== Model Gateway (callGemini, src lines 60 to 82) ===== -/

/- the fixed fallback returned when the response carries no completion
   text (the logical-or default on the completion field) -/
def fallbackNoText : List Char :=
  ("I couldn").data ++ [Char.ofNat 39] ++ ("t process that request.").data

/- the fixed fallback returned by the catch block -/
def fallbackError : List Char :=
  ("Error connecting to AI services. Please try again.").data

/- outcome of the single fetch attempt the code performs -/
inductive GeminiOutcome : Type where
  | networkError : GeminiOutcome
  | httpError : GeminiOutcome
  | noCandidates : GeminiOutcome
  | completion : List Char → GeminiOutcome
deriving DecidableEq

/- the body of the try block: a network failure rejects the fetch, a
   non-ok status throws, an ok response with no completion text yields
   the fallback (also when the text is the empty string, because the
   code uses a logical-or default), otherwise the completion text -/
def geminiAttempt : GeminiOutcome → Except (List Char) (List Char)
  | GeminiOutcome.networkError => Except.error (("Failed to fetch").data)
  | GeminiOutcome.httpError => Except.error (("Gemini API Error").data)
  | GeminiOutcome.noCandidates => Except.ok fallbackNoText
  | GeminiOutcome.completion t => Except.ok (if t = [] then fallbackNoText else t)

/- the whole function including its catch block: every thrown error is
   converted to the ok fallback string -/
def callGeminiE (o : GeminiOutcome) : Except (List Char) (List Char) :=
  match geminiAttempt o with
  | Except.ok s => Except.ok s
  | Except.error _ => Except.ok fallbackError

def callGemini (o : GeminiOutcome) : List Char :=
  match callGeminiE o with
  | Except.ok s => s
  | Except.error e => e

/- the code performs exactly one fetch, so of a whole sequence of
   possible endpoint outcomes only the first is ever consumed -/
def callGeminiFirstAttemptOnly (endpoint : Nat → GeminiOutcome) : List Char :=
  callGemini (endpoint 0)

def isFailure : GeminiOutcome → Bool
  | GeminiOutcome.networkError => true
  | GeminiOutcome.httpError => true
  | GeminiOutcome.noCandidates => true
  | GeminiOutcome.completion _ => false

/- ===== Screening pipeline (handleScreening, src lines 259 to 308) ===== -/

/- resultText.replace(fence regex, empty).trim() then JSON.parse -/
def screeningExtract (resultText : List Char) : Option Jval :=
  jparse (trimList (stripFences resultText))

structure ScreeningRecord where
  jobTitle : List Char
  score : Option Jval
  recommendation : Option Jval
  timestamp : Nat
  createdBy : List Char

structure ScreenState where
  analysis : Option Jval
  loading : Bool
  records : List ScreeningRecord
  alerts : List (List Char)
  errLogs : Nat
  calls : Nat

def analysisFailedMsg : List Char := ("AI Analysis failed. Try again.").data

def initScreenState : ScreenState :=
  { analysis := none, loading := false, records := [], alerts := [], errLogs := 0, calls := 0 }

/- handleScreening: the guard checks string truthiness, so only the
   empty string is rejected; the gateway is then called once; on parse
   failure the catch block logs and alerts; on success the analysis is
   set and one record is appended, and a failing append falls into the
   same catch block after the analysis was already set -/
def handleScreening (jobDesc resumeText : List Char) (o : GeminiOutcome) (appendOk : Bool)
    (uid : List Char) (now : Nat) (st : ScreenState) : ScreenState :=
  if jobDesc = [] ∨ resumeText = [] then st
  else
    let st1 : ScreenState := { st with loading := true, analysis := none }
    let resultText := callGemini o
    let st2 : ScreenState := { st1 with calls := st1.calls + 1 }
    match screeningExtract resultText with
    | none =>
      { st2 with errLogs := st2.errLogs + 1, alerts := st2.alerts ++ [analysisFailedMsg],
                 loading := false }
    | some result =>
      let st3 : ScreenState := { st2 with analysis := some result }
      let newRecord : ScreeningRecord :=
        { jobTitle := jobDesc.take 30 ++ ("...").data,
          score := jget result (("score").data),
          recommendation := jget result (("recommendation").data),
          timestamp := now,
          createdBy := uid }
      if appendOk then { st3 with records := st3.records ++ [newRecord], loading := false }
      else
        { st3 with errLogs := st3.errLogs + 1, alerts := st3.alerts ++ [analysisFailedMsg],
                   loading := false }

/- ===== Interview agent (InterviewAgent, src lines 413 to 525) ===== -/

inductive Sender : Type where
  | ai : Sender
  | candidate : Sender
deriving DecidableEq

def Sender.isAi : Sender → Bool
  | Sender.ai => true
  | Sender.candidate => false

structure ITurn where
  sender : Sender
  text : List Char
deriving DecidableEq

/- the substring the code looks for in the model reply -/
def terminationMarker : List Char := ("concludes").data

structure IState where
  active : Bool
  conversation : List ITurn
  feedback : Option Jval
  /- ghost field recording whether generateFeedback was triggered, that
     is whether the session took the terminating transition -/
  termTriggered : Bool
  calls : Nat

def initIState : IState :=
  { active := false, conversation := [], feedback := none, termTriggered := false, calls := 0 }

def welcomeText (role : List Char) : List Char :=
  ("Welcome to the interview for the ").data ++ role ++
  (" position. I am your AI interviewer. Let").data ++ [Char.ofNat 39] ++
  ("s start with a simple question: Tell me about yourself and why you applied for this role.").data

def startInterview (role : List Char) (st : IState) : IState :=
  if role = [] then st
  else { st with active := true, conversation := [⟨Sender.ai, welcomeText role⟩] }

/- generateFeedback: res.replace(fence regex, empty) then JSON.parse,
   with no trim call -/
def feedbackExtract (res : List Char) : Option Jval := jparse (stripFences res)

def generateFeedback (fo : GeminiOutcome) (st : IState) : IState :=
  let st1 : IState := { st with calls := st.calls + 1 }
  match feedbackExtract (callGemini fo) with
  | some j => { st1 with feedback := some j }
  | none => st1

/- the continuation of handleResponse after its blank guard: it closes
   over the conversation value captured when the call started (conv0),
   appends the candidate turn and the model reply to that captured
   value, and triggers feedback generation when the reply contains the
   termination marker.  Applying it to a different current state models
   the continuation resuming after the state changed underneath it. -/
def staleResume (conv0 : List ITurn) (input : List Char) (o fo : GeminiOutcome)
    (st : IState) : IState :=
  let newConv := conv0 ++ [⟨Sender.candidate, input⟩]
  let reply := callGemini o
  let finalConv := newConv ++ [⟨Sender.ai, reply⟩]
  let st1 : IState := { st with conversation := finalConv, calls := st.calls + 1 }
  if containsSub terminationMarker reply then
    { (generateFeedback fo st1) with termTriggered := true }
  else st1

def handleResponse (input : List Char) (o fo : GeminiOutcome) (st : IState) : IState :=
  if trimList input = [] then st
  else staleResume st.conversation input o fo st

/- the End Session button handler -/
def endSession (st : IState) : IState :=
  { st with active := false, conversation := [], feedback := none, termTriggered := false }

/- operations available through the UI -/
inductive IOp : Type where
  | start (role : List Char) : IOp
  | respond (input : List Char) (o fo : GeminiOutcome) : IOp
  | finish : IOp

/- each operation is guarded by the UI affordance that exposes it: the
   start form only renders when no session is active, the answer input
   only renders while the session is active and no feedback is shown,
   and the End Session button only renders while a session is active -/
def istep (st : IState) (op : IOp) : IState :=
  match op with
  | IOp.start r => if st.active then st else startInterview r st
  | IOp.respond i o fo =>
    if st.active && st.feedback.isNone then handleResponse i o fo st else st
  | IOp.finish => if st.active then endSession st else st

def irun (st : IState) (ops : List IOp) : IState := ops.foldl istep st

def respondStep (s : List Char × GeminiOutcome × GeminiOutcome) : IOp :=
  IOp.respond s.1 s.2.1 s.2.2

def interviewRun (role : List Char) (steps : List (List Char × GeminiOutcome × GeminiOutcome)) :
    IState :=
  irun initIState (IOp.start role :: steps.map respondStep)

def aiMarkerTurn (t : ITurn) : Bool :=
  t.sender.isAi && containsSub terminationMarker t.text

def markerHit (s : List Char × GeminiOutcome × GeminiOutcome) : Bool :=
  !(trimList s.1).isEmpty && containsSub terminationMarker (callGemini s.2.1)

def goodAfter : List Char → Bool
  | [] => true
  | c :: _ => !(isDig c)

def istateInv (st : IState) : Prop :=
  (st.active = false → st.feedback = none ∧ st.termTriggered = false) ∧
  (st.feedback.isSome = true →
    st.termTriggered = true ∧ st.conversation.any aiMarkerTurn = true)

def c6preState : IState := irun initIState [IOp.start (("DevOps Engineer").data)]

def c6afterReset : IState := istep c6preState IOp.finish

/- the continuation of the response handler that was in flight when the
   session was reset, closing over the pre-reset conversation, resuming
   against the reset state -/
def c6afterStale : IState :=
  staleResume c6preState.conversation (("I automate our deployments.").data)
    (GeminiOutcome.completion
      (("Thank you, that concludes the interview. Impressive background.").data))
    (GeminiOutcome.completion
      (("\x7b\"score\":75,\"pros\":[\"skilled\"],\"cons\":[\"terse\"]\x7d").data))
    c6afterReset

def c9raw : List Char := ("\x7b\"s\":\"\\u0060\\u0060\\u0060\"\x7d").data

def c9vA : Jval :=
  Jval.jobj [((("s").data), Jval.jstr [Char.ofNat 96, Char.ofNat 96, Char.ofNat 96])]

def c9vB : Jval := Jval.jobj [((("s").data), Jval.jstr [])]

def c9serial : List Char := ("\x7b\"s\":\"```\"\x7d").data


/- ===== helper lemmas ===== -/

lemma handleScreening_guard_false {jobDesc resumeText : List Char}
    (hj : jobDesc ≠ []) (hr : resumeText ≠ []) : ¬ (jobDesc = [] ∨ resumeText = []) :=
  fun h => h.elim hj hr

/- ===== Claim C2 ===== -/

/-- Claim C2: for every prompt and system-instruction pair, a failing
underlying model call (network error, non-success status, or missing
completion field) makes the Gateway return a non-empty fixed fallback
string without raising to the caller, and only the first attempt
outcome is ever consumed, so at most one request attempt is made. -/
theorem c2_gateway_no_raise (o : GeminiOutcome) :
    callGeminiE o = Except.ok (callGemini o) ∧
    callGemini o ≠ [] ∧
    (isFailure o = true → callGemini o = fallbackNoText ∨ callGemini o = fallbackError) ∧
    (∀ e1 e2 : Nat → GeminiOutcome, e1 0 = e2 0 →
      callGeminiFirstAttemptOnly e1 = callGeminiFirstAttemptOnly e2) := by
  refine ⟨?_, ?_, ?_, ?_⟩
  · cases o <;> rfl
  · cases o with
    | completion t =>
      show (if t = [] then fallbackNoText else t) ≠ []
      split
      · decide
      · assumption
    | networkError => decide
    | httpError => decide
    | noCandidates => decide
  · intro h
    cases o with
    | completion t => simp [isFailure] at h
    | networkError => exact Or.inr rfl
    | httpError => exact Or.inr rfl
    | noCandidates => exact Or.inl rfl
  · intro e1 e2 h
    unfold callGeminiFirstAttemptOnly
    rw [h]

/-- Witness for C2 at a concrete failing outcome. -/
theorem c2_witness :
    callGemini GeminiOutcome.networkError = fallbackError ∧
    callGemini GeminiOutcome.networkError ≠ [] := by
  have h := c2_gateway_no_raise GeminiOutcome.networkError
  refine ⟨?_, h.2.1⟩
  rcases h.2.2.1 rfl with h1 | h1
  · exact absurd h1 (by decide)
  · exact h1

/- ===== Claim C4 ===== -/

/-- Claim C4: for every input pair, when the Gateway reply lacks a
parseable structured payload (in particular when it is the Gateway
fallback string), the screening fails with the parse-failure alert, no
ScreeningRecord is appended to the store, and no partial result is
produced or displayed. -/
theorem c4_screen_parse_failure (jobDesc resumeText : List Char) (o : GeminiOutcome)
    (appendOk : Bool) (uid : List Char) (now : Nat) (st : ScreenState)
    (hj : jobDesc ≠ []) (hr : resumeText ≠ [])
    (hparse : screeningExtract (callGemini o) = none) :
    (handleScreening jobDesc resumeText o appendOk uid now st).analysis = none ∧
    (handleScreening jobDesc resumeText o appendOk uid now st).records = st.records ∧
    (handleScreening jobDesc resumeText o appendOk uid now st).alerts
      = st.alerts ++ [analysisFailedMsg] ∧
    (handleScreening jobDesc resumeText o appendOk uid now st).errLogs = st.errLogs + 1 := by
  unfold handleScreening
  rw [if_neg (handleScreening_guard_false hj hr)]
  simp [hparse]

/-- Witness for C4: the network-failure fallback string is not a
parseable payload, so a concrete screening over it appends nothing and
displays nothing. -/
theorem c4_witness :
    (handleScreening (("Senior Go Engineer").data) (("5 years Go, distributed systems").data)
        GeminiOutcome.networkError true (("user-1").data) 7 initScreenState).analysis = none ∧
    (handleScreening (("Senior Go Engineer").data) (("5 years Go, distributed systems").data)
        GeminiOutcome.networkError true (("user-1").data) 7 initScreenState).records = [] := by
  have h := c4_screen_parse_failure (("Senior Go Engineer").data)
    (("5 years Go, distributed systems").data) GeminiOutcome.networkError true
    (("user-1").data) 7 initScreenState (by decide) (by decide) (by rfl)
  exact ⟨h.1, h.2.1⟩

/- ===== Claim C3 ===== -/

/-- Claim C3: for every non-empty job description and resume, when the
Gateway returns a well-formed structured payload with score 88 and
recommendation Hire, the screening stores that payload as the displayed
result and appends exactly one ScreeningRecord carrying the same score,
the same recommendation, the truncated job-title preview, the caller
identity and the timestamp. -/
theorem c3_screen_success (jobDesc resumeText : List Char) (o : GeminiOutcome)
    (uid : List Char) (now : Nat) (st : ScreenState) (v : Jval)
    (hj : jobDesc ≠ []) (hr : resumeText ≠ [])
    (hparse : screeningExtract (callGemini o) = some v)
    (hscore : jget v (("score").data) = some (Jval.jnum 88))
    (hrec : jget v (("recommendation").data) = some (Jval.jstr (("Hire").data))) :
    (handleScreening jobDesc resumeText o true uid now st).analysis = some v ∧
    (handleScreening jobDesc resumeText o true uid now st).records =
      st.records ++ [{ jobTitle := jobDesc.take 30 ++ (("...").data),
                       score := some (Jval.jnum 88),
                       recommendation := some (Jval.jstr (("Hire").data)),
                       timestamp := now, createdBy := uid }] := by
  unfold handleScreening
  rw [if_neg (handleScreening_guard_false hj hr)]
  simp [hparse, hscore, hrec]

/-- Witness for C3 at the concrete payload of the spec scenario. -/
theorem c3_witness :
    (handleScreening (("Senior Go Engineer, distributed systems, Kubernetes").data)
        (("5 years Go, distributed systems, gRPC").data)
        (GeminiOutcome.completion
          (("\x7b\"score\":88,\"recommendation\":\"Hire\"\x7d").data))
        true (("user-1").data) 7 initScreenState).analysis
      = some (Jval.jobj [((("score").data), Jval.jnum 88),
                         ((("recommendation").data), Jval.jstr (("Hire").data))]) ∧
    (handleScreening (("Senior Go Engineer, distributed systems, Kubernetes").data)
        (("5 years Go, distributed systems, gRPC").data)
        (GeminiOutcome.completion
          (("\x7b\"score\":88,\"recommendation\":\"Hire\"\x7d").data))
        true (("user-1").data) 7 initScreenState).records =
      [{ jobTitle := (("Senior Go Engineer, distributed systems, Kubernetes").data).take 30
           ++ (("...").data),
         score := some (Jval.jnum 88),
         recommendation := some (Jval.jstr (("Hire").data)),
         timestamp := 7, createdBy := (("user-1").data) }] := by
  have h := c3_screen_success (("Senior Go Engineer, distributed systems, Kubernetes").data)
    (("5 years Go, distributed systems, gRPC").data)
    (GeminiOutcome.completion (("\x7b\"score\":88,\"recommendation\":\"Hire\"\x7d").data))
    (("user-1").data) 7 initScreenState
    (Jval.jobj [((("score").data), Jval.jnum 88),
                ((("recommendation").data), Jval.jstr (("Hire").data))])
    (by decide) (by decide) (by rfl) (by rfl) (by rfl)
  exact ⟨h.1, h.2⟩

/- ===== Claim C7 ===== -/

/-- Counterexample for C7 as stated: a whitespace-only job description is
blank but passes the truthiness guard of the screening handler, so a
model call is issued and the state changes. -/
theorem c7_counterexample :
    (handleScreening ((" ").data) (("resume text").data) GeminiOutcome.networkError true
        (("user-1").data) 0 initScreenState).calls ≠ initScreenState.calls := by
  decide

/-- Claim C7 amended: handleResponse with blank (empty or
whitespace-only) candidate text is a complete no-op, and the screening
handler is a complete no-op when either input is the empty string; a
whitespace-only screening input, however, is not guarded. -/
theorem c7_empty_guards :
    (∀ (st : IState) (input : List Char) (o fo : GeminiOutcome),
      trimList input = [] → handleResponse input o fo st = st) ∧
    (∀ (st : ScreenState) (jobDesc resumeText : List Char) (o : GeminiOutcome)
      (appendOk : Bool) (uid : List Char) (now : Nat),
      jobDesc = [] ∨ resumeText = [] →
      handleScreening jobDesc resumeText o appendOk uid now st = st) := by
  constructor
  · intro st input o fo h
    unfold handleResponse
    rw [if_pos h]
  · intro st jobDesc resumeText o appendOk uid now h
    unfold handleScreening
    rw [if_pos h]

/-- Witness for C7 amended at concrete blank inputs. -/
theorem c7_witness :
    handleResponse (("   ").data) GeminiOutcome.networkError GeminiOutcome.networkError
      initIState = initIState ∧
    handleScreening [] (("resume text").data) GeminiOutcome.networkError true
      (("user-1").data) 0 initScreenState = initScreenState :=
  ⟨c7_empty_guards.1 initIState (("   ").data) GeminiOutcome.networkError
      GeminiOutcome.networkError (by rfl),
   c7_empty_guards.2 initScreenState [] (("resume text").data) GeminiOutcome.networkError
      true (("user-1").data) 0 (Or.inl rfl)⟩

/- ===== Claim C8 ===== -/

/-- Counterexample for C8 as stated: when the store append fails after a
successful screening, the code is not logged-only; the same user-facing
failure alert as for a parse failure is raised, even though the
computed result is kept. -/
theorem c8_counterexample :
    ((handleScreening (("Senior Go Engineer").data) (("5 years Go").data)
        (GeminiOutcome.completion
          (("\x7b\"score\":88,\"recommendation\":\"Hire\"\x7d").data))
        false (("user-1").data) 0 initScreenState).analysis).isSome = true ∧
    (handleScreening (("Senior Go Engineer").data) (("5 years Go").data)
        (GeminiOutcome.completion
          (("\x7b\"score\":88,\"recommendation\":\"Hire\"\x7d").data))
        false (("user-1").data) 0 initScreenState).alerts ≠ [] := by
  constructor
  · rfl
  · decide

/-- Claim C8 amended: a store append failure after a successful
screening leaves the already-computed result displayed and appends no
record, and the failure is logged, but it additionally raises the same
user-visible failure alert as a parse failure rather than being
logged-only. -/
theorem c8_append_failure_keeps_result (jobDesc resumeText : List Char) (o : GeminiOutcome)
    (uid : List Char) (now : Nat) (st : ScreenState) (v : Jval)
    (hj : jobDesc ≠ []) (hr : resumeText ≠ [])
    (hparse : screeningExtract (callGemini o) = some v) :
    (handleScreening jobDesc resumeText o false uid now st).analysis = some v ∧
    (handleScreening jobDesc resumeText o false uid now st).records = st.records ∧
    (handleScreening jobDesc resumeText o false uid now st).errLogs = st.errLogs + 1 ∧
    (handleScreening jobDesc resumeText o false uid now st).alerts
      = st.alerts ++ [analysisFailedMsg] := by
  unfold handleScreening
  rw [if_neg (handleScreening_guard_false hj hr)]
  simp [hparse]

/-- Witness for C8 amended at a concrete successful payload. -/
theorem c8_witness :
    (handleScreening (("Staff Engineer").data) (("10 years experience").data)
        (GeminiOutcome.completion (("\x7b\"score\":90,\"recommendation\":\"Strong Hire\"\x7d").data))
        false (("user-2").data) 3 initScreenState).analysis
      = some (Jval.jobj [((("score").data), Jval.jnum 90),
                         ((("recommendation").data), Jval.jstr (("Strong Hire").data))]) ∧
    (handleScreening (("Staff Engineer").data) (("10 years experience").data)
        (GeminiOutcome.completion (("\x7b\"score\":90,\"recommendation\":\"Strong Hire\"\x7d").data))
        false (("user-2").data) 3 initScreenState).records = [] := by
  have h := c8_append_failure_keeps_result (("Staff Engineer").data)
    (("10 years experience").data)
    (GeminiOutcome.completion (("\x7b\"score\":90,\"recommendation\":\"Strong Hire\"\x7d").data))
    (("user-2").data) 3 initScreenState
    (Jval.jobj [((("score").data), Jval.jnum 90),
                ((("recommendation").data), Jval.jstr (("Strong Hire").data))])
    (by decide) (by decide) (by rfl)
  exact ⟨h.1, h.2.1⟩

/- ===== Claim C10 ===== -/

/-- Claim C10: for every successful screening, the persisted record
carries a job-title preview equal to the first 30 characters of the job
description followed by the literal three-dot suffix unconditionally,
so the preview of a job description of at most 30 characters never
equals that job description verbatim. -/
theorem c10_preview_format (jobDesc resumeText : List Char) (o : GeminiOutcome)
    (uid : List Char) (now : Nat) (st : ScreenState) (v : Jval)
    (hj : jobDesc ≠ []) (hr : resumeText ≠ [])
    (hparse : screeningExtract (callGemini o) = some v) :
    (handleScreening jobDesc resumeText o true uid now st).records =
      st.records ++ [{ jobTitle := jobDesc.take 30 ++ (("...").data),
                       score := jget v (("score").data),
                       recommendation := jget v (("recommendation").data),
                       timestamp := now, createdBy := uid }] ∧
    (jobDesc.length ≤ 30 → jobDesc.take 30 ++ (("...").data) ≠ jobDesc) := by
  constructor
  · unfold handleScreening
    rw [if_neg (handleScreening_guard_false hj hr)]
    simp [hparse]
  · intro hle heq
    have h2 := congrArg List.length heq
    simp [List.length_append, List.length_take] at h2
    omega

/-- Witness for C10 at a short concrete job description. -/
theorem c10_witness :
    (handleScreening (("Dev").data) (("resume").data)
        (GeminiOutcome.completion (("\x7b\"score\":50,\"recommendation\":\"Reject\"\x7d").data))
        true (("user-3").data) 1 initScreenState).records =
      [{ jobTitle := ((("Dev").data).take 30) ++ (("...").data),
         score := jget (Jval.jobj [((("score").data), Jval.jnum 50),
                                   ((("recommendation").data), Jval.jstr (("Reject").data))])
                    (("score").data),
         recommendation := jget (Jval.jobj [((("score").data), Jval.jnum 50),
                                   ((("recommendation").data), Jval.jstr (("Reject").data))])
                    (("recommendation").data),
         timestamp := 1, createdBy := (("user-3").data) }] ∧
    ((("Dev").data).take 30) ++ (("...").data) ≠ (("Dev").data) := by
  have h := c10_preview_format (("Dev").data) (("resume").data)
    (GeminiOutcome.completion (("\x7b\"score\":50,\"recommendation\":\"Reject\"\x7d").data))
    (("user-3").data) 1 initScreenState
    (Jval.jobj [((("score").data), Jval.jnum 50),
                ((("recommendation").data), Jval.jstr (("Reject").data))])
    (by decide) (by decide) (by rfl)
  exact ⟨h.1, h.2 (by decide)⟩

/- ===== interview run lemmas ===== -/

lemma generateFeedback_active (fo : GeminiOutcome) (st : IState) :
    (generateFeedback fo st).active = st.active := by
  unfold generateFeedback
  cases feedbackExtract (callGemini fo) <;> rfl

lemma generateFeedback_conversation (fo : GeminiOutcome) (st : IState) :
    (generateFeedback fo st).conversation = st.conversation := by
  unfold generateFeedback
  cases feedbackExtract (callGemini fo) <;> rfl

lemma generateFeedback_feedback (fo : GeminiOutcome) (st : IState) :
    (generateFeedback fo st).feedback = st.feedback ∨
    (generateFeedback fo st).feedback = feedbackExtract (callGemini fo) := by
  unfold generateFeedback
  cases h : feedbackExtract (callGemini fo) <;> simp [h]

lemma handleResponse_step (input : List Char) (o fo : GeminiOutcome) (st : IState) :
    (handleResponse input o fo st).active = st.active ∧
    (handleResponse input o fo st).termTriggered
      = (st.termTriggered || markerHit (input, o, fo)) ∧
    ((handleResponse input o fo st).feedback.isSome = true →
      (handleResponse input o fo st).termTriggered = true ∨ st.feedback.isSome = true) := by
  unfold handleResponse
  by_cases hbl : trimList input = []
  · rw [if_pos hbl]
    refine ⟨rfl, ?_, fun h => Or.inr h⟩
    simp [markerHit, hbl]
  · rw [if_neg hbl]
    unfold staleResume
    by_cases hm : containsSub terminationMarker (callGemini o) = true
    · rw [if_pos hm]
      refine ⟨?_, ?_, fun _ => Or.inl rfl⟩
      · show (generateFeedback fo _).active = st.active
        rw [generateFeedback_active]
      · have hne : (trimList input).isEmpty = false := by
          cases h : trimList input with
          | nil => exact absurd h hbl
          | cons a l => rfl
        simp [markerHit, hne, hm]
    · rw [if_neg hm]
      have hm' : containsSub terminationMarker (callGemini o) = false :=
        Bool.not_eq_true _ ▸ (by simpa using hm)
      refine ⟨rfl, ?_, fun h => Or.inr h⟩
      simp [markerHit, hm']

lemma respond_run_spec (steps : List (List Char × GeminiOutcome × GeminiOutcome)) :
    ∀ st : IState, st.active = true →
    ((st.feedback.isSome = true → st.termTriggered = true)) →
    (irun st (steps.map respondStep)).termTriggered
      = (st.termTriggered || steps.any markerHit) ∧
    (irun st (steps.map respondStep)).active = true := by
  induction steps with
  | nil =>
    intro st ha _
    refine ⟨?_, ?_⟩ <;> simp [irun, ha]
  | cons s t ih =>
    intro st ha hf
    have hstep : irun st ((s :: t).map respondStep)
        = irun (istep st (respondStep s)) (t.map respondStep) := rfl
    rw [hstep]
    by_cases hfb : st.feedback.isSome = true
    · have hterm : st.termTriggered = true := hf hfb
      have hskip : istep st (respondStep s) = st := by
        cases hsf : st.feedback with
        | none => rw [hsf] at hfb; simp at hfb
        | some j => simp [istep, respondStep, hsf]
      rw [hskip]
      obtain ⟨h1, h2⟩ := ih st ha hf
      refine ⟨?_, h2⟩
      rw [h1, hterm]
      simp
    · have hfb' : st.feedback.isNone = true := by
        cases hsf : st.feedback with
        | none => rfl
        | some j => rw [hsf] at hfb; simp at hfb
      have hexec : istep st (respondStep s) = handleResponse s.1 s.2.1 s.2.2 st := by
        simp [istep, respondStep, ha, hfb']
      rw [hexec]
      obtain ⟨hha, hht, hhf⟩ := handleResponse_step s.1 s.2.1 s.2.2 st
      have ha' : (handleResponse s.1 s.2.1 s.2.2 st).active = true := by rw [hha]; exact ha
      have hf' : (handleResponse s.1 s.2.1 s.2.2 st).feedback.isSome = true →
          (handleResponse s.1 s.2.1 s.2.2 st).termTriggered = true := by
        intro hx
        rcases hhf hx with h | h
        · exact h
        · exact absurd h hfb
      obtain ⟨h1, h2⟩ := ih _ ha' hf'
      refine ⟨?_, h2⟩
      rw [h1, hht]
      simp [List.any_cons, Bool.or_assoc]

/- ===== Claim C1 ===== -/

/-- Counterexample for C1 as stated: starting a session whose role title
contains the word of the termination marker seeds an AI turn whose text
contains the marker, yet the session is Active and not Terminated, so
Terminated does not hold if and only if some AI turn contains the
marker. -/
theorem c1_counterexample :
    (irun initIState [IOp.start (("concludes").data)]).conversation.any aiMarkerTurn = true ∧
    (irun initIState [IOp.start (("concludes").data)]).termTriggered = false ∧
    (irun initIState [IOp.start (("concludes").data)]).active = true :=
  ⟨rfl, rfl, rfl⟩

/-- Claim C1 amended: over every interview session started with a
non-empty role title and every sequence of candidate turns and model
replies, the session takes the terminating transition if and only if
some candidate turn is non-blank and the model reply it received
contains the termination marker; in particular reaching 3 candidate
turns without the marker in any reply leaves the session Active, a
marker-bearing reply terminates it regardless of turn count, and only
replies appended by the response handler are inspected, not the seeded
welcome turn. -/
theorem c1_terminates_iff_marker_reply (role : List Char)
    (steps : List (List Char × GeminiOutcome × GeminiOutcome)) (hrole : role ≠ []) :
    ((interviewRun role steps).termTriggered = true ↔
      ∃ s ∈ steps, markerHit s = true) ∧
    (interviewRun role steps).active = true := by
  have h0 : istep initIState (IOp.start role) =
      { active := true, conversation := [⟨Sender.ai, welcomeText role⟩], feedback := none,
        termTriggered := false, calls := 0 } := by
    simp [istep, initIState, startInterview, hrole]
  have hrun : interviewRun role steps
      = irun (istep initIState (IOp.start role)) (steps.map respondStep) := rfl
  rw [hrun, h0]
  obtain ⟨h1, h2⟩ := respond_run_spec steps
    { active := true, conversation := [⟨Sender.ai, welcomeText role⟩], feedback := none,
      termTriggered := false, calls := 0 } rfl (by simp)
  refine ⟨?_, h2⟩
  rw [h1]
  simp only [Bool.false_or]
  exact List.any_eq_true

/-- Witness for C1 amended: three non-blank candidate turns whose
replies all omit the marker; the instantiated equivalence shows the
session is still Active and not Terminated. -/
theorem c1_witness :
    (((interviewRun (("Backend Developer").data)
        [((("I am a backend engineer.").data),
          GeminiOutcome.completion (("Tell me about a recent project.").data),
          GeminiOutcome.networkError),
         ((("I built a payments service.").data),
          GeminiOutcome.completion (("What was the hardest part?").data),
          GeminiOutcome.networkError),
         ((("Scaling it under load.").data),
          GeminiOutcome.completion (("How did you test it?").data),
          GeminiOutcome.networkError)]).termTriggered = true) ↔
      ∃ s ∈ [((("I am a backend engineer.").data),
          GeminiOutcome.completion (("Tell me about a recent project.").data),
          GeminiOutcome.networkError),
         ((("I built a payments service.").data),
          GeminiOutcome.completion (("What was the hardest part?").data),
          GeminiOutcome.networkError),
         ((("Scaling it under load.").data),
          GeminiOutcome.completion (("How did you test it?").data),
          GeminiOutcome.networkError)], markerHit s = true) ∧
    (interviewRun (("Backend Developer").data)
        [((("I am a backend engineer.").data),
          GeminiOutcome.completion (("Tell me about a recent project.").data),
          GeminiOutcome.networkError),
         ((("I built a payments service.").data),
          GeminiOutcome.completion (("What was the hardest part?").data),
          GeminiOutcome.networkError),
         ((("Scaling it under load.").data),
          GeminiOutcome.completion (("How did you test it?").data),
          GeminiOutcome.networkError)]).active = true :=
  c1_terminates_iff_marker_reply (("Backend Developer").data) _ (by decide)

/- ===== Claim C5 ===== -/

lemma initIState_inv : istateInv initIState :=
  ⟨fun _ => ⟨rfl, rfl⟩, fun h => by simp [initIState] at h⟩

lemma staleResume_active (conv0 : List ITurn) (input : List Char) (o fo : GeminiOutcome)
    (st : IState) : (staleResume conv0 input o fo st).active = st.active := by
  unfold staleResume
  by_cases hm : containsSub terminationMarker (callGemini o) = true
  · rw [if_pos hm]
    simp [generateFeedback_active]
  · rw [if_neg hm]

lemma staleResume_conversation (conv0 : List ITurn) (input : List Char) (o fo : GeminiOutcome)
    (st : IState) :
    (staleResume conv0 input o fo st).conversation
      = (conv0 ++ [⟨Sender.candidate, input⟩]) ++ [⟨Sender.ai, callGemini o⟩] := by
  unfold staleResume
  by_cases hm : containsSub terminationMarker (callGemini o) = true
  · rw [if_pos hm]
    simp [generateFeedback_conversation]
  · rw [if_neg hm]

lemma staleResume_term_marker (conv0 : List ITurn) (input : List Char) (o fo : GeminiOutcome)
    (st : IState) (hm : containsSub terminationMarker (callGemini o) = true) :
    (staleResume conv0 input o fo st).termTriggered = true := by
  unfold staleResume
  rw [if_pos hm]

lemma staleResume_feedback_nomarker (conv0 : List ITurn) (input : List Char)
    (o fo : GeminiOutcome) (st : IState)
    (hm : ¬ containsSub terminationMarker (callGemini o) = true) :
    (staleResume conv0 input o fo st).feedback = st.feedback := by
  unfold staleResume
  rw [if_neg hm]

lemma handleResponse_inv (input : List Char) (o fo : GeminiOutcome) (st : IState)
    (ha : st.active = true) (hfb : st.feedback = none) (h : istateInv st) :
    istateInv (handleResponse input o fo st) := by
  by_cases hbl : trimList input = []
  · unfold handleResponse
    rw [if_pos hbl]
    exact h
  · have hhr : handleResponse input o fo st = staleResume st.conversation input o fo st := by
      unfold handleResponse
      rw [if_neg hbl]
    rw [hhr]
    constructor
    · intro hcontr
      rw [staleResume_active, ha] at hcontr
      exact Bool.noConfusion hcontr
    · intro hx
      by_cases hm : containsSub terminationMarker (callGemini o) = true
      · refine ⟨staleResume_term_marker _ _ _ _ _ hm, ?_⟩
        rw [staleResume_conversation]
        simp [List.any_append, aiMarkerTurn, Sender.isAi, hm]
      · exfalso
        rw [staleResume_feedback_nomarker _ _ _ _ _ hm, hfb] at hx
        exact Bool.noConfusion hx

lemma startInterview_feedback (r : List Char) (st : IState) :
    (startInterview r st).feedback = st.feedback := by
  unfold startInterview
  by_cases hr : r = []
  · rw [if_pos hr]
  · rw [if_neg hr]

lemma istep_inv (st : IState) (op : IOp) (h : istateInv st) : istateInv (istep st op) := by
  obtain ⟨hna, hfb⟩ := h
  cases op with
  | start r =>
    by_cases ha : st.active = true
    · simp [istep, ha]
      exact ⟨hna, hfb⟩
    · have ha' : st.active = false := by
        cases hh : st.active
        · rfl
        · exact absurd hh ha
      obtain ⟨hf0, _⟩ := hna ha'
      simp only [istep, ha', Bool.false_eq_true, if_false]
      unfold startInterview
      by_cases hr : r = []
      · rw [if_pos hr]
        exact ⟨hna, hfb⟩
      · rw [if_neg hr]
        constructor
        · intro hcontr
          exact absurd hcontr (by simp)
        · intro hx
          have hxf : st.feedback.isSome = true := hx
          rw [hf0] at hxf
          exact Bool.noConfusion hxf
  | respond i o fo =>
    by_cases hg : (st.active && st.feedback.isNone) = true
    · obtain ⟨ha, hn⟩ : st.active = true ∧ st.feedback.isNone = true := by simpa using hg
      have hn' : st.feedback = none := by
        cases hh : st.feedback
        · rfl
        · rw [hh] at hn
          exact Bool.noConfusion hn
      simp only [istep, hg, if_true]
      exact handleResponse_inv i o fo st ha hn' ⟨hna, hfb⟩
    · have hg' : (st.active && st.feedback.isNone) = false := by
        cases hh : st.active && st.feedback.isNone
        · rfl
        · exact absurd hh hg
      simp only [istep, hg', Bool.false_eq_true, if_false]
      exact ⟨hna, hfb⟩
  | finish =>
    by_cases ha : st.active = true
    · simp only [istep, ha, if_true]
      exact ⟨fun _ => ⟨rfl, rfl⟩, fun hx => Bool.noConfusion hx⟩
    · have ha' : st.active = false := by
        cases hh : st.active
        · rfl
        · exact absurd hh ha
      simp only [istep, ha', Bool.false_eq_true, if_false]
      exact ⟨hna, hfb⟩

lemma irun_inv_aux (ops : List IOp) : ∀ st : IState, istateInv st → istateInv (irun st ops) := by
  induction ops with
  | nil =>
    intro st h
    exact h
  | cons op t ih =>
    intro st h
    have hr : irun st (op :: t) = irun (istep st op) t := rfl
    rw [hr]
    exact ih _ (istep_inv st op h)

/-- Counterexample for C5 as stated: a session whose marker-bearing reply
is followed by an unparseable feedback payload is terminated with the
marker present in an AI turn, yet feedback is unset, so feedback being
set is not equivalent to the session being terminated with a
marker-bearing AI turn. -/
theorem c5_counterexample :
    ¬ (((irun initIState
          [IOp.start (("Data Scientist").data),
           IOp.respond (("I analyze data for products.").data)
             (GeminiOutcome.completion
               (("Thank you, that concludes the interview. Good work.").data))
             (GeminiOutcome.completion (("no feedback payload here").data))]).feedback.isSome
          = true) ↔
       ((irun initIState
          [IOp.start (("Data Scientist").data),
           IOp.respond (("I analyze data for products.").data)
             (GeminiOutcome.completion
               (("Thank you, that concludes the interview. Good work.").data))
             (GeminiOutcome.completion (("no feedback payload here").data))]).termTriggered
          = true ∧
        (irun initIState
          [IOp.start (("Data Scientist").data),
           IOp.respond (("I analyze data for products.").data)
             (GeminiOutcome.completion
               (("Thank you, that concludes the interview. Good work.").data))
             (GeminiOutcome.completion (("no feedback payload here").data))]).conversation.any
          aiMarkerTurn = true)) := by
  intro h
  have h2 := h.mpr ⟨rfl, rfl⟩
  exact absurd h2 (by decide)

/-- Claim C5 amended: in every reachable state of the interview session,
if feedback is set then the session has taken the terminating
transition and some AI turn of the transcript contains the termination
marker; the converse direction fails only when the feedback payload did
not parse, in which case the session is terminated with feedback
unset. -/
theorem c5_feedback_invariant (ops : List IOp)
    (hfb : (irun initIState ops).feedback.isSome = true) :
    (irun initIState ops).termTriggered = true ∧
    (irun initIState ops).conversation.any aiMarkerTurn = true :=
  (irun_inv_aux ops initIState initIState_inv).2 hfb

/-- Witness for C5 amended: a run whose feedback payload parses; its
feedback is set and the conclusion holds. -/
theorem c5_witness :
    (irun initIState
      [IOp.start (("Frontend Developer").data),
       IOp.respond (("I enjoy building user interfaces.").data)
         (GeminiOutcome.completion
           (("Thank you, that concludes the interview. Good luck.").data))
         (GeminiOutcome.completion
           (("\x7b\"score\":82,\"pros\":[\"clear\"],\"cons\":[\"brief\"]\x7d").data))]).termTriggered
      = true ∧
    (irun initIState
      [IOp.start (("Frontend Developer").data),
       IOp.respond (("I enjoy building user interfaces.").data)
         (GeminiOutcome.completion
           (("Thank you, that concludes the interview. Good luck.").data))
         (GeminiOutcome.completion
           (("\x7b\"score\":82,\"pros\":[\"clear\"],\"cons\":[\"brief\"]\x7d").data))]).conversation.any
      aiMarkerTurn = true :=
  c5_feedback_invariant
    [IOp.start (("Frontend Developer").data),
     IOp.respond (("I enjoy building user interfaces.").data)
       (GeminiOutcome.completion
         (("Thank you, that concludes the interview. Good luck.").data))
       (GeminiOutcome.completion
         (("\x7b\"score\":82,\"pros\":[\"clear\"],\"cons\":[\"brief\"]\x7d").data))]
    (by rfl)

/- ===== Claim C6 ===== -/

/-- Claim C6: ending the session does reset it to empty, but the code
has no generation token, so a model response still in flight from
before the reset repopulates the reset session when it arrives: the
resumed continuation rebuilds the transcript from its captured copy and
can even set feedback.  This theorem evaluates the embedded code at the
failing input of the claim. -/
theorem c6_stale_reply_repopulates :
    (c6afterReset.conversation = [] ∧ c6afterReset.feedback = none ∧
     c6afterReset.active = false) ∧
    (c6afterStale.conversation.length = 3 ∧ c6afterStale.feedback.isSome = true) :=
  ⟨⟨rfl, rfl, rfl⟩, ⟨rfl, rfl⟩⟩

/- ===== serialization and parsing lemmas for the extraction roundtrip ===== -/

lemma isWS_false_of_isDig {c : Char} (h : isDig c = true) : isWS c = false := by
  simp [isDig] at h
  simp [isWS]
  omega

lemma ne_of_dig {c x : Char} (h : isDig c = true) (hx : isDig x = false) : c ≠ x := by
  intro he
  rw [he] at h
  rw [h] at hx
  exact Bool.noConfusion hx

lemma skipWS_cons_nonws {c : Char} {cs : List Char} (h : isWS c = false) :
    skipWS (c :: cs) = c :: cs := by
  simp [skipWS, h]

lemma chopLit_append (pre cs : List Char) : chopLit pre (pre ++ cs) = some cs := by
  induction pre with
  | nil => rfl
  | cons p ps ih => simp [chopLit, ih]

lemma isDig_digitChar (d : Nat) : isDig (digitChar d) = true := by
  unfold digitChar
  split <;> decide

lemma digitVal_digitChar (d : Nat) (h : d < 10) : digitVal (digitChar d) = d := by
  interval_cases d <;> decide

lemma natDigsF_irrel : ∀ f g n : Nat, n ≤ f → n ≤ g → natDigsF f n = natDigsF g n := by
  intro f
  induction f with
  | zero =>
    intro g n hf _
    have hn : n = 0 := by omega
    subst hn
    cases g with
    | zero => rfl
    | succ g => simp [natDigsF]
  | succ f ih =>
    intro g n hf hg
    cases g with
    | zero =>
      have hn : n = 0 := by omega
      subst hn
      simp [natDigsF]
    | succ g =>
      by_cases hn : n < 10
      · simp [natDigsF, hn]
      · simp only [natDigsF, hn, if_false]
        rw [ih g (n / 10) (by omega) (by omega)]

lemma natDigs_unfold (n : Nat) :
    natDigs n = if n < 10 then [digitChar n] else natDigs (n / 10) ++ [digitChar (n % 10)] := by
  unfold natDigs
  by_cases hn : n < 10
  · rw [if_pos hn]
    cases n with
    | zero => simp [natDigsF]
    | succ m => simp [natDigsF, hn]
  · rw [if_neg hn]
    cases n with
    | zero => exact absurd (by omega) hn
    | succ m =>
      simp only [natDigsF, hn, if_false]
      rw [natDigsF_irrel m ((m + 1) / 10) ((m + 1) / 10) (by omega) (by omega)]

lemma natDigs_head (n : Nat) : ∃ c t, natDigs n = c :: t ∧ isDig c = true := by
  induction n using Nat.strong_induction_on with
  | _ n ih =>
    rw [natDigs_unfold]
    by_cases hn : n < 10
    · rw [if_pos hn]
      exact ⟨digitChar n, [], rfl, isDig_digitChar n⟩
    · rw [if_neg hn]
      obtain ⟨c, t, hct, hd⟩ := ih (n / 10) (by omega)
      rw [hct]
      exact ⟨c, t ++ [digitChar (n % 10)], rfl, hd⟩

lemma natDigs_ne_nil (n : Nat) : natDigs n ≠ [] := by
  obtain ⟨c, t, hct, _⟩ := natDigs_head n
  rw [hct]
  exact List.cons_ne_nil c t

lemma natDigs_digits (n : Nat) : ∀ c ∈ natDigs n, isDig c = true := by
  induction n using Nat.strong_induction_on with
  | _ n ih =>
    rw [natDigs_unfold]
    by_cases hn : n < 10
    · rw [if_pos hn]
      intro c hc
      simp at hc
      rw [hc]
      exact isDig_digitChar n
    · rw [if_neg hn]
      intro c hc
      rcases List.mem_append.mp hc with h | h
      · exact ih (n / 10) (by omega) c h
      · simp at h
        rw [h]
        exact isDig_digitChar _

lemma valOfDigits_natDigs (n : Nat) : valOfDigits (natDigs n) = n := by
  induction n using Nat.strong_induction_on with
  | _ n ih =>
    rw [natDigs_unfold]
    by_cases hn : n < 10
    · rw [if_pos hn]
      show valOfDigits [digitChar n] = n
      simp [valOfDigits, List.foldl, digitVal_digitChar n hn]
    · rw [if_neg hn]
      show valOfDigits (natDigs (n / 10) ++ [digitChar (n % 10)]) = n
      unfold valOfDigits
      rw [List.foldl_append]
      have h1 : List.foldl (fun a c => 10 * a + digitVal c) 0 (natDigs (n / 10)) = n / 10 :=
        ih (n / 10) (by omega)
      rw [h1]
      simp [List.foldl, digitVal_digitChar (n % 10) (by omega)]
      omega

lemma takeDigits_all (ds rest : List Char) (hds : ∀ c ∈ ds, isDig c = true)
    (hrest : goodAfter rest = true) : takeDigits (ds ++ rest) = (ds, rest) := by
  induction ds with
  | nil =>
    cases rest with
    | nil => rfl
    | cons c cs =>
      have hcd : isDig c = false := by
        simp [goodAfter] at hrest
        exact hrest
      simp [takeDigits, hcd]
  | cons d ds ih =>
    have hd : isDig d = true := hds d (List.mem_cons_self d ds)
    have ih' := ih (fun c hc => hds c (List.mem_cons_of_mem d hc))
    simp [takeDigits, hd, ih']

lemma parseNat_digits (ds rest : List Char) (hne : ds ≠ []) (hds : ∀ c ∈ ds, isDig c = true)
    (hrest : goodAfter rest = true) :
    parseNat (ds ++ rest) = some (valOfDigits ds, rest) := by
  have hie : ds.isEmpty = false := by
    cases ds with
    | nil => exact absurd rfl hne
    | cons a l => rfl
  unfold parseNat
  rw [takeDigits_all ds rest hds hrest]
  simp [hie]

lemma parseStrBody_roundtrip (s rest : List Char) :
    parseStrBody (s.flatMap escChar ++ ('"' :: rest)) = some (s, rest) := by
  induction s with
  | nil =>
    show parseStrBody ([].flatMap escChar ++ ('"' :: rest)) = some ([], rest)
    rw [show ([] : List Char).flatMap escChar ++ ('"' :: rest) = '"' :: rest from by simp]
    rw [parseStrBody.eq_def]
    simp
  | cons c s ih =>
    by_cases h1 : c = '"'
    · subst h1
      simp only [escChar, List.flatMap_cons, if_pos rfl, List.cons_append, List.append_assoc]
      rw [parseStrBody.eq_def]
      simp [consOpt, ih]
    · by_cases h2 : c = '\\'
      · subst h2
        simp only [escChar, List.flatMap_cons, List.cons_append, List.append_assoc]
        norm_num only
        rw [parseStrBody.eq_def]
        simp [consOpt, ih]
      · by_cases h3 : c = Char.ofNat 10
        · subst h3
          simp only [escChar, List.flatMap_cons, List.cons_append, List.append_assoc]
          norm_num only
          rw [parseStrBody.eq_def]
          simp [consOpt, ih]
        · by_cases h4 : c = Char.ofNat 9
          · subst h4
            simp only [escChar, List.flatMap_cons, List.cons_append, List.append_assoc]
            norm_num only
            rw [parseStrBody.eq_def]
            simp [consOpt, ih]
          · by_cases h5 : c = Char.ofNat 13
            · subst h5
              simp only [escChar, List.flatMap_cons, List.cons_append, List.append_assoc]
              norm_num only
              rw [parseStrBody.eq_def]
              simp [consOpt, ih]
            · by_cases h6 : c = Char.ofNat 8
              · subst h6
                simp only [escChar, List.flatMap_cons, List.cons_append, List.append_assoc]
                norm_num only
                rw [parseStrBody.eq_def]
                simp [consOpt, ih]
              · by_cases h7 : c = Char.ofNat 12
                · subst h7
                  simp only [escChar, List.flatMap_cons, List.cons_append, List.append_assoc]
                  norm_num only
                  rw [parseStrBody.eq_def]
                  simp [consOpt, ih]
                · simp only [escChar, h1, h2, h3, h4, h5, h6, h7, if_neg, List.flatMap_cons,
                    List.cons_append, List.append_assoc, List.singleton_append, ite_false]
                  rw [parseStrBody.eq_def]
                  simp [h1, h2, consOpt, ih]

lemma printVal_head (v : Jval) : ∃ c t, printVal v = c :: t ∧ isWS c = false ∧ c ≠ ']' := by
  cases v with
  | jnull => exact ⟨'n', ['u', 'l', 'l'], by simp [printVal], by decide, by decide⟩
  | jbool b =>
    cases b with
    | true => exact ⟨'t', ['r', 'u', 'e'], by simp [printVal], by decide, by decide⟩
    | false => exact ⟨'f', ['a', 'l', 's', 'e'], by simp [printVal], by decide, by decide⟩
  | jnum n =>
    by_cases hneg : n < 0
    · exact ⟨'-', natDigs n.natAbs, by simp [printVal, printInt, hneg], by decide, by decide⟩
    · obtain ⟨c, t, hct, hd⟩ := natDigs_head n.natAbs
      exact ⟨c, t, by simp [printVal, printInt, hneg, hct], isWS_false_of_isDig hd,
        ne_of_dig hd (by decide)⟩
  | jstr s =>
    exact ⟨'"', s.flatMap escChar ++ ['"'], by simp [printVal, printStr], by decide, by decide⟩
  | jarr xs =>
    exact ⟨'[', printElems xs ++ [']'], by simp [printVal], by decide, by decide⟩
  | jobj fs =>
    exact ⟨'{', printFields fs ++ ['}'], by simp [printVal], by decide, by decide⟩

lemma printVal_ne_nil (v : Jval) : printVal v ≠ [] := by
  obtain ⟨c, t, hct, _, _⟩ := printVal_head v
  rw [hct]
  exact List.cons_ne_nil c t

lemma printVal_length_pos (v : Jval) : 0 < (printVal v).length :=
  List.length_pos.mpr (printVal_ne_nil v)

lemma skipWS_printVal (v : Jval) (y : List Char) :
    skipWS (printVal v ++ y) = printVal v ++ y := by
  obtain ⟨c, t, hct, hnws, _⟩ := printVal_head v
  rw [hct, List.cons_append, skipWS_cons_nonws hnws]

lemma skipWS_printElems_rb (xs : List Jval) (rest : List Char) :
    skipWS (printElems xs ++ (']' :: rest)) = printElems xs ++ (']' :: rest) := by
  cases xs with
  | nil =>
    simp only [printElems, List.nil_append]
    exact skipWS_cons_nonws (by decide)
  | cons x t =>
    simp only [printElems, List.append_assoc]
    exact skipWS_printVal x _

lemma skipWS_printTail_rb (xs : List Jval) (rest : List Char) :
    skipWS (printTail xs ++ (']' :: rest)) = printTail xs ++ (']' :: rest) := by
  cases xs with
  | nil =>
    simp only [printTail, List.nil_append]
    exact skipWS_cons_nonws (by decide)
  | cons x t =>
    simp only [printTail, List.cons_append]
    exact skipWS_cons_nonws (by decide)

lemma skipWS_printFields_rb (fs : List (List Char × Jval)) (rest : List Char) :
    skipWS (printFields fs ++ ('}' :: rest)) = printFields fs ++ ('}' :: rest) := by
  cases fs with
  | nil =>
    simp only [printFields, List.nil_append]
    exact skipWS_cons_nonws (by decide)
  | cons kv t =>
    simp only [printFields, printStr, List.cons_append, List.append_assoc]
    exact skipWS_cons_nonws (by decide)

lemma skipWS_printFTail_rb (fs : List (List Char × Jval)) (rest : List Char) :
    skipWS (printFTail fs ++ ('}' :: rest)) = printFTail fs ++ ('}' :: rest) := by
  cases fs with
  | nil =>
    simp only [printFTail, List.nil_append]
    exact skipWS_cons_nonws (by decide)
  | cons kv t =>
    simp only [printFTail, List.cons_append]
    exact skipWS_cons_nonws (by decide)

lemma goodAfter_printTail_rb (t : List Jval) (rest : List Char) :
    goodAfter (printTail t ++ (']' :: rest)) = true := by
  cases t with
  | nil => simp [printTail, goodAfter, isDig]
  | cons y u => simp [printTail, goodAfter, isDig]

lemma goodAfter_printFTail_rb (t : List (List Char × Jval)) (rest : List Char) :
    goodAfter (printFTail t ++ ('}' :: rest)) = true := by
  cases t with
  | nil => simp [printFTail, goodAfter, isDig]
  | cons kv u => simp [printFTail, goodAfter, isDig]

lemma rt_val_succ (f : Nat)
    (ihe : ∀ (xs : List Jval) (rest : List Char), (printElems xs).length + 1 < f →
      parseElems f (printElems xs ++ (']' :: rest)) = some (xs, rest))
    (ihf : ∀ (fs : List (List Char × Jval)) (rest : List Char),
      (printFields fs).length + 1 < f →
      parseFields f (printFields fs ++ ('}' :: rest)) = some (fs, rest)) :
    ∀ (v : Jval) (rest : List Char), (printVal v).length < f + 1 → goodAfter rest = true →
      parseVal (f + 1) (printVal v ++ rest) = some (v, rest) := by
  intro v rest hlen hrest
  cases v with
  | jnull =>
    simp only [printVal, List.cons_append, List.nil_append]
    rw [parseVal.eq_def]
    simp [skipWS, isWS, chopLit]
  | jbool b =>
    cases b with
    | true =>
      simp only [printVal, List.cons_append, List.nil_append]
      rw [parseVal.eq_def]
      simp [skipWS, isWS, chopLit]
    | false =>
      simp only [printVal, List.cons_append, List.nil_append]
      rw [parseVal.eq_def]
      simp [skipWS, isWS, chopLit]
  | jstr s =>
    simp only [printVal, printStr, List.cons_append, List.append_assoc, List.singleton_append]
    rw [parseVal.eq_def]
    simp [skipWS, isWS, parseStrBody_roundtrip]
  | jnum n =>
    have hd := natDigs_digits n.natAbs
    have hne := natDigs_ne_nil n.natAbs
    by_cases hneg : n < 0
    · have habs : ((n.natAbs : Int)) = -n := Int.ofNat_natAbs_of_nonpos (by omega)
      simp only [printVal, printInt, if_pos hneg, List.cons_append]
      rw [parseVal.eq_def]
      simp [skipWS, isWS]
      rw [parseNat_digits _ _ hne hd hrest]
      simp [valOfDigits_natDigs, habs]
    · have habs : ((n.natAbs : Int)) = n := Int.natAbs_of_nonneg (by omega)
      obtain ⟨c, t, hct, hd1⟩ := natDigs_head n.natAbs
      have hnws := isWS_false_of_isDig hd1
      have h1 : c ≠ 'n' := ne_of_dig hd1 (by decide)
      have h2 : c ≠ 't' := ne_of_dig hd1 (by decide)
      have h3 : c ≠ 'f' := ne_of_dig hd1 (by decide)
      have h4 : c ≠ '"' := ne_of_dig hd1 (by decide)
      have h5 : c ≠ '[' := ne_of_dig hd1 (by decide)
      have h6 : c ≠ '{' := ne_of_dig hd1 (by decide)
      have h7 : c ≠ '-' := ne_of_dig hd1 (by decide)
      simp only [printVal, printInt, if_neg hneg]
      rw [hct, List.cons_append]
      rw [parseVal.eq_def]
      simp [skipWS_cons_nonws hnws, h1, h2, h3, h4, h5, h6, h7, hd1]
      rw [show c :: (t ++ rest) = natDigs n.natAbs ++ rest from by rw [hct, List.cons_append]]
      rw [parseNat_digits _ _ hne hd hrest]
      simp [valOfDigits_natDigs, habs]
  | jarr xs =>
    have hlen2 : (printElems xs).length + 1 < f := by
      simp only [printVal, List.length_cons, List.length_append] at hlen
      simp at hlen
      omega
    have he := ihe xs rest hlen2
    have hsk := skipWS_printElems_rb xs rest
    simp only [printVal, List.cons_append, List.append_assoc, List.singleton_append]
    rw [parseVal.eq_def]
    simp [skipWS, isWS, hsk, he]
  | jobj fs =>
    have hlen2 : (printFields fs).length + 1 < f := by
      simp only [printVal, List.length_cons, List.length_append] at hlen
      simp at hlen
      omega
    have hf := ihf fs rest hlen2
    have hsk := skipWS_printFields_rb fs rest
    simp only [printVal, List.cons_append, List.append_assoc, List.singleton_append]
    rw [parseVal.eq_def]
    simp [skipWS, isWS, hsk, hf]

lemma rt_elems_succ (f : Nat)
    (ihv : ∀ (v : Jval) (rest : List Char), (printVal v).length < f → goodAfter rest = true →
      parseVal f (printVal v ++ rest) = some (v, rest))
    (iht : ∀ (xs : List Jval) (rest : List Char), (printTail xs).length + 1 < f →
      parseElemsTail f (printTail xs ++ (']' :: rest)) = some (xs, rest)) :
    ∀ (xs : List Jval) (rest : List Char), (printElems xs).length + 1 < f + 1 →
      parseElems (f + 1) (printElems xs ++ (']' :: rest)) = some (xs, rest) := by
  intro xs rest hlen
  cases xs with
  | nil =>
    simp only [printElems, List.nil_append]
    rw [parseElems.eq_def]
    simp
  | cons x t =>
    obtain ⟨c, u, hct, hnws, hrb⟩ := printVal_head x
    have hpos := printVal_length_pos x
    have hlen1 : (printVal x).length < f := by
      simp only [printElems, List.length_append] at hlen
      omega
    have hlen2 : (printTail t).length + 1 < f := by
      simp only [printElems, List.length_append] at hlen
      omega
    have hv := ihv x (printTail t ++ (']' :: rest)) hlen1 (goodAfter_printTail_rb t rest)
    have ht := iht t rest hlen2
    have hsk := skipWS_printTail_rb t rest
    simp only [printElems, List.append_assoc]
    rw [parseElems.eq_def]
    rw [show printVal x ++ (printTail t ++ (']' :: rest))
        = c :: (u ++ (printTail t ++ (']' :: rest))) from by rw [hct, List.cons_append]]
    simp [hrb]
    rw [show c :: (u ++ (printTail t ++ (']' :: rest)))
        = printVal x ++ (printTail t ++ (']' :: rest)) from by rw [hct, List.cons_append]]
    rw [hv]
    simp [hsk, ht]

lemma rt_etail_succ (f : Nat)
    (ihv : ∀ (v : Jval) (rest : List Char), (printVal v).length < f → goodAfter rest = true →
      parseVal f (printVal v ++ rest) = some (v, rest))
    (iht : ∀ (xs : List Jval) (rest : List Char), (printTail xs).length + 1 < f →
      parseElemsTail f (printTail xs ++ (']' :: rest)) = some (xs, rest)) :
    ∀ (xs : List Jval) (rest : List Char), (printTail xs).length + 1 < f + 1 →
      parseElemsTail (f + 1) (printTail xs ++ (']' :: rest)) = some (xs, rest) := by
  intro xs rest hlen
  cases xs with
  | nil =>
    simp only [printTail, List.nil_append]
    rw [parseElemsTail.eq_def]
    simp
  | cons x t =>
    have hpos := printVal_length_pos x
    have hlen1 : (printVal x).length < f := by
      simp only [printTail, List.length_cons, List.length_append] at hlen
      omega
    have hlen2 : (printTail t).length + 1 < f := by
      simp only [printTail, List.length_cons, List.length_append] at hlen
      omega
    have hv := ihv x (printTail t ++ (']' :: rest)) hlen1 (goodAfter_printTail_rb t rest)
    have ht := iht t rest hlen2
    have hsk := skipWS_printTail_rb t rest
    simp only [printTail, List.cons_append, List.append_assoc]
    rw [parseElemsTail.eq_def]
    simp
    rw [hv]
    simp [hsk, ht]

lemma rt_fields_succ (f : Nat)
    (ihv : ∀ (v : Jval) (rest : List Char), (printVal v).length < f → goodAfter rest = true →
      parseVal f (printVal v ++ rest) = some (v, rest))
    (ihft : ∀ (fs : List (List Char × Jval)) (rest : List Char),
      (printFTail fs).length + 1 < f →
      parseFieldsTail f (printFTail fs ++ ('}' :: rest)) = some (fs, rest)) :
    ∀ (fs : List (List Char × Jval)) (rest : List Char), (printFields fs).length + 1 < f + 1 →
      parseFields (f + 1) (printFields fs ++ ('}' :: rest)) = some (fs, rest) := by
  intro fs rest hlen
  cases fs with
  | nil =>
    simp only [printFields, List.nil_append]
    rw [parseFields.eq_def]
    simp
  | cons kv t =>
    obtain ⟨k, v⟩ := kv
    have hpos := printVal_length_pos v
    have hlen1 : (printVal v).length < f := by
      simp only [printFields, printStr, List.length_cons, List.length_append] at hlen
      omega
    have hlen2 : (printFTail t).length + 1 < f := by
      simp only [printFields, printStr, List.length_cons, List.length_append] at hlen
      omega
    have hv := ihv v (printFTail t ++ ('}' :: rest)) hlen1 (goodAfter_printFTail_rb t rest)
    have hft := ihft t rest hlen2
    have hsk := skipWS_printFTail_rb t rest
    simp only [printFields, printStr, List.cons_append, List.append_assoc,
      List.singleton_append]
    rw [parseFields.eq_def]
    simp [skipWS, isWS]
    rw [parseStrBody_roundtrip]
    simp [skipWS, isWS]
    rw [hv]
    simp [hsk, hft]

lemma rt_ftail_succ (f : Nat)
    (ihv : ∀ (v : Jval) (rest : List Char), (printVal v).length < f → goodAfter rest = true →
      parseVal f (printVal v ++ rest) = some (v, rest))
    (ihft : ∀ (fs : List (List Char × Jval)) (rest : List Char),
      (printFTail fs).length + 1 < f →
      parseFieldsTail f (printFTail fs ++ ('}' :: rest)) = some (fs, rest)) :
    ∀ (fs : List (List Char × Jval)) (rest : List Char), (printFTail fs).length + 1 < f + 1 →
      parseFieldsTail (f + 1) (printFTail fs ++ ('}' :: rest)) = some (fs, rest) := by
  intro fs rest hlen
  cases fs with
  | nil =>
    simp only [printFTail, List.nil_append]
    rw [parseFieldsTail.eq_def]
    simp
  | cons kv t =>
    obtain ⟨k, v⟩ := kv
    have hpos := printVal_length_pos v
    have hlen1 : (printVal v).length < f := by
      simp only [printFTail, printStr, List.length_cons, List.length_append] at hlen
      omega
    have hlen2 : (printFTail t).length + 1 < f := by
      simp only [printFTail, printStr, List.length_cons, List.length_append] at hlen
      omega
    have hv := ihv v (printFTail t ++ ('}' :: rest)) hlen1 (goodAfter_printFTail_rb t rest)
    have hft := ihft t rest hlen2
    have hsk := skipWS_printFTail_rb t rest
    simp only [printFTail, printStr, List.cons_append, List.append_assoc,
      List.singleton_append]
    rw [parseFieldsTail.eq_def]
    simp [skipWS, isWS]
    rw [parseStrBody_roundtrip]
    simp [skipWS, isWS]
    rw [hv]
    simp [hsk, hft]

theorem parse_print_aux : ∀ f : Nat,
    (∀ (v : Jval) (rest : List Char), (printVal v).length < f → goodAfter rest = true →
      parseVal f (printVal v ++ rest) = some (v, rest)) ∧
    (∀ (xs : List Jval) (rest : List Char), (printElems xs).length + 1 < f →
      parseElems f (printElems xs ++ (']' :: rest)) = some (xs, rest)) ∧
    (∀ (xs : List Jval) (rest : List Char), (printTail xs).length + 1 < f →
      parseElemsTail f (printTail xs ++ (']' :: rest)) = some (xs, rest)) ∧
    (∀ (fs : List (List Char × Jval)) (rest : List Char), (printFields fs).length + 1 < f →
      parseFields f (printFields fs ++ ('}' :: rest)) = some (fs, rest)) ∧
    (∀ (fs : List (List Char × Jval)) (rest : List Char), (printFTail fs).length + 1 < f →
      parseFieldsTail f (printFTail fs ++ ('}' :: rest)) = some (fs, rest)) := by
  intro f
  induction f with
  | zero =>
    refine ⟨?_, ?_, ?_, ?_, ?_⟩
    · intro v rest hlen _
      exact absurd hlen (by omega)
    · intro xs rest hlen
      exact absurd hlen (by omega)
    · intro xs rest hlen
      exact absurd hlen (by omega)
    · intro fs rest hlen
      exact absurd hlen (by omega)
    · intro fs rest hlen
      exact absurd hlen (by omega)
  | succ f ih =>
    obtain ⟨ihv, ihe, iht, ihf, ihft⟩ := ih
    exact ⟨rt_val_succ f ihe ihf, rt_elems_succ f ihv iht, rt_etail_succ f ihv iht,
      rt_fields_succ f ihv ihft, rt_ftail_succ f ihv ihft⟩

theorem jparse_printVal (v : Jval) : jparse (printVal v) = some v := by
  have h := (parse_print_aux ((printVal v).length + 1)).1 v [] (by omega) rfl
  rw [List.append_nil] at h
  unfold jparse
  rw [h]
  simp [skipWS]

lemma natDigs_last (n : Nat) : ∃ pre, natDigs n = pre ++ [digitChar (n % 10)] := by
  rw [natDigs_unfold]
  by_cases hn : n < 10
  · rw [if_pos hn]
    exact ⟨[], by simp [Nat.mod_eq_of_lt hn]⟩
  · rw [if_neg hn]
    exact ⟨natDigs (n / 10), rfl⟩

lemma printVal_last (v : Jval) : ∃ t c, printVal v = t ++ [c] ∧ isWS c = false := by
  cases v with
  | jnull => exact ⟨['n', 'u', 'l'], 'l', by simp [printVal], by decide⟩
  | jbool b =>
    cases b with
    | true => exact ⟨['t', 'r', 'u'], 'e', by simp [printVal], by decide⟩
    | false => exact ⟨['f', 'a', 'l', 's'], 'e', by simp [printVal], by decide⟩
  | jnum n =>
    obtain ⟨pre, hpre⟩ := natDigs_last n.natAbs
    by_cases hneg : n < 0
    · exact ⟨'-' :: pre, digitChar (n.natAbs % 10),
        by simp [printVal, printInt, hneg, hpre],
        isWS_false_of_isDig (isDig_digitChar _)⟩
    · exact ⟨pre, digitChar (n.natAbs % 10),
        by simp [printVal, printInt, hneg, hpre],
        isWS_false_of_isDig (isDig_digitChar _)⟩
  | jstr s =>
    exact ⟨'"' :: s.flatMap escChar, '"', by simp [printVal, printStr], by decide⟩
  | jarr xs => exact ⟨'[' :: printElems xs, ']', by simp [printVal], by decide⟩
  | jobj fs => exact ⟨'{' :: printFields fs, '}', by simp [printVal], by decide⟩

lemma trimList_noop (l : List Char) (h1 : l.dropWhile isWS = l)
    (h2 : l.reverse.dropWhile isWS = l.reverse) : trimList l = l := by
  unfold trimList
  rw [h1, h2, List.reverse_reverse]

lemma trim_printVal (v : Jval) : trimList (printVal v) = printVal v := by
  obtain ⟨c, t, hct, hnws, _⟩ := printVal_head v
  obtain ⟨pre, c2, hpre, hnws2⟩ := printVal_last v
  apply trimList_noop
  · rw [hct]
    simp [List.dropWhile_cons, hnws]
  · rw [hpre]
    simp [List.reverse_append, List.dropWhile_cons, hnws2]

/- ===== Claim C9 ===== -/

/-- Counterexample for C9 as stated: extraction succeeds on a raw text
whose parsed value carries a string of three backticks (written with
unicode escapes, so fence stripping does not touch the raw text), but
re-extracting the canonical re-serialization strips the backticks out
of the string content, yielding a different structured value; so the
extraction is not idempotent on every raw text on which it succeeds. -/
theorem c9_counterexample :
    screeningExtract c9raw = some c9vA ∧
    screeningExtract (printVal c9vA) ≠ some c9vA := by
  have hp : printVal c9vA = c9serial := by
    simp [c9vA, c9serial, printVal, printFields, printFTail, printStr, escChar]
  refine ⟨rfl, ?_⟩
  intro h
  rw [hp] at h
  have h2 : screeningExtract c9serial = some c9vB := rfl
  rw [h2] at h
  have h3 : c9vB = c9vA := Option.some.inj h
  have h4 : jget c9vB (("s").data) = jget c9vA (("s").data) := by rw [h3]
  rw [show jget c9vB (("s").data) = some (Jval.jstr []) from rfl,
      show jget c9vA (("s").data)
        = some (Jval.jstr [Char.ofNat 96, Char.ofNat 96, Char.ofNat 96]) from rfl] at h4
  have h5 := Option.some.inj h4
  have h6 : ([] : List Char) = [Char.ofNat 96, Char.ofNat 96, Char.ofNat 96] := by
    injection h5
  exact List.noConfusion h6

/-- Claim C9 amended: for every raw text on which the extraction
succeeds, if the canonical re-serialization of the extracted value is
untouched by fence stripping (it contains no backtick fence), then
applying the extraction to that re-serialization yields an equal
structured value; idempotence fails only when the re-serialized value
itself contains a fence substring inside string content. -/
theorem c9_reserialize_idempotent (raw : List Char) (v : Jval)
    (h1 : screeningExtract raw = some v)
    (h2 : stripFences (printVal v) = printVal v) :
    screeningExtract (printVal v) = some v := by
  unfold screeningExtract
  rw [h2, trim_printVal, jparse_printVal]

/-- Witness for C9 amended at a concrete payload whose serialization is
fence-free. -/
theorem c9_witness :
    screeningExtract (("\x7b\"ok\":true\x7d").data)
      = some (Jval.jobj [((("ok").data), Jval.jbool true)]) ∧
    screeningExtract (printVal (Jval.jobj [((("ok").data), Jval.jbool true)]))
      = some (Jval.jobj [((("ok").data), Jval.jbool true)]) := by
  have hp : printVal (Jval.jobj [((("ok").data), Jval.jbool true)])
      = ("\x7b\"ok\":true\x7d").data := by
    simp [printVal, printFields, printFTail, printStr, escChar]
  refine ⟨rfl, ?_⟩
  exact c9_reserialize_idempotent (("\x7b\"ok\":true\x7d").data) _ rfl (by rw [hp]; rfl)
